import Mathlib

/-!
# Verification of the `lattice` Merkle trust-anchor program

A shallow embedding of `programs/lattice/src`: the domain-separated Merkle
hashing and proof verification (`state/merkle.rs`), the canonical Borsh
encoding of a trust edge (`state/trust_edge.rs`), and the instruction
handlers (`instructions/update_root.rs`, `instructions/verify_edge.rs`,
`instructions/initialize.rs`) over the `TrustAnchor` record
(`state/trust_anchor.rs`).

Bytes are modelled as `Nat` (values < 256 where the source guarantees it),
byte strings as `List Nat`.  The external keccak-256 function
(`solana_program::keccak`, not part of this repository) is modelled as an
explicit function parameter `keccak : List Nat → List Nat`; properties that
genuinely depend on the hash being collision-free take an injectivity
hypothesis, while the structural properties of the proof walk hold for
every choice of `keccak`.
-/

/-- `hash_leaf` from `state/merkle.rs`:
`keccak256(0x00 || data)` — the single-byte `LEAF_PREFIX` is `[0x00]`. -/
def hash_leaf (keccak : List Nat → List Nat) (data : List Nat) : List Nat :=
  keccak (0 :: data)

/-- `hash_nodes` from `state/merkle.rs`:
`keccak256(0x01 || left || right)` — `NODE_PREFIX` is `[0x01]`. -/
def hash_nodes (keccak : List Nat → List Nat) (left right : List Nat) : List Nat :=
  keccak (1 :: (left ++ right))

/-- The loop body of `verify_proof` from `state/merkle.rs`: iterate over the
siblings, combining left or right according to the parity of `idx`, halving
`idx` each step (`idx /= 2`; `u32` division only shrinks, so `Nat` division
is exact). -/
def verifyLoop (keccak : List Nat → List Nat) :
    List (List Nat) → List Nat → Nat → List Nat
  | [], computed, _ => computed
  | sibling :: rest, computed, idx =>
      verifyLoop keccak rest
        (if idx % 2 = 0 then hash_nodes keccak computed sibling
         else hash_nodes keccak sibling computed)
        (idx / 2)

/-- `verify_proof` from `state/merkle.rs`: run the loop from `computed = leaf`
and `idx = index`, then compare with `root`. -/
def verify_proof (keccak : List Nat → List Nat) (proof : List (List Nat))
    (root leaf : List Nat) (index : Nat) : Bool :=
  decide (verifyLoop keccak proof leaf index = root)

/-- The fold described by the spec (§4.1) for `verify_proof`, written as a
`List.foldl` over the pair `(computed, idx)`: used to state the refinement
claim C1 against the loop translated from the source. -/
def specVerifyFold (keccak : List Nat → List Nat) (proof : List (List Nat))
    (root leaf : List Nat) (index : Nat) : Bool :=
  let final := proof.foldl
    (fun (st : List Nat × Nat) sibling =>
      (if st.2 % 2 = 0 then hash_nodes keccak st.1 sibling
       else hash_nodes keccak sibling st.1,
       st.2 / 2))
    (leaf, index)
  decide (final.1 = root)

theorem verifyLoop_eq_foldl (keccak : List Nat → List Nat)
    (proof : List (List Nat)) (leaf : List Nat) (index : Nat) :
    verifyLoop keccak proof leaf index =
      (proof.foldl
        (fun (st : List Nat × Nat) sibling =>
          (if st.2 % 2 = 0 then hash_nodes keccak st.1 sibling
           else hash_nodes keccak sibling st.1,
           st.2 / 2))
        (leaf, index)).1 := by
  induction proof generalizing leaf index with
  | nil => rfl
  | cons s rest ih =>
      simp only [verifyLoop, List.foldl_cons]
      exact ih _ _

/-- C1 -- `verify_proof` computes exactly the spec's fold: starting from
`computed = leaf`, `idx = index`, each sibling is combined on the right when
`idx` is even and on the left when `idx` is odd, then `idx` is halved; the
result is the comparison of the final `computed` with `root`.  In
particular, an empty proof at index 0 verifies exactly when
`leaf = root`. -/
theorem C1_verify_proof_is_spec_fold (keccak : List Nat → List Nat)
    (proof : List (List Nat)) (root leaf : List Nat) (index : Nat) :
    verify_proof keccak proof root leaf index =
      specVerifyFold keccak proof root leaf index ∧
    (verify_proof keccak [] root leaf 0 = true ↔ leaf = root) := by
  constructor
  · simp only [verify_proof, specVerifyFold, verifyLoop_eq_foldl]
  · simp [verify_proof, verifyLoop]

theorem verifyLoop_index_mod (keccak : List Nat → List Nat)
    (proof : List (List Nat)) (leaf : List Nat) (index : Nat) :
    verifyLoop keccak proof leaf (index % 2 ^ proof.length) =
      verifyLoop keccak proof leaf index := by
  induction proof generalizing leaf index with
  | nil => rfl
  | cons s rest ih =>
      simp only [verifyLoop, List.length_cons]
      have h2 : (2 : Nat) ^ (rest.length + 1) = 2 * 2 ^ rest.length := by
        rw [pow_succ, Nat.mul_comm]
      have hpar : index % 2 ^ (rest.length + 1) % 2 = index % 2 := by
        rw [h2]; exact Nat.mod_mod_of_dvd index ⟨2 ^ rest.length, rfl⟩
      have hdiv : index % 2 ^ (rest.length + 1) / 2 = index / 2 % 2 ^ rest.length := by
        rw [h2]; exact Nat.mod_mul_right_div_self index 2 (2 ^ rest.length)
      simp only [hpar, hdiv, ih]

/-- C9 -- `verify_proof` depends on the leaf index only through its lowest
`proof.length` bits: replacing `index` by `index % 2 ^ proof.length` leaves
the result unchanged; with an empty proof the result is `leaf = root` for
every index, not only index 0. -/
theorem C9_verify_proof_index_low_bits (keccak : List Nat → List Nat)
    (proof : List (List Nat)) (root leaf : List Nat) (index : Nat) :
    verify_proof keccak proof root leaf index =
      verify_proof keccak proof root leaf (index % 2 ^ proof.length) ∧
    (verify_proof keccak [] root leaf index = true ↔ leaf = root) := by
  constructor
  · simp only [verify_proof, verifyLoop_index_mod]
  · simp [verify_proof, verifyLoop]

/-- C8 -- domain separation: when the underlying keccak function is
collision-free (injective), `hash_leaf data` differs from the raw hash of
`data` (the inputs `0x00 || data` and `data` have different lengths), and
`hash_nodes` is not commutative on distinct 32-byte children (the inputs
`0x01 || l || r` and `0x01 || r || l` differ). -/
theorem C8_domain_separation (keccak : List Nat → List Nat)
    (hinj : Function.Injective keccak) :
    (∀ d : List Nat, hash_leaf keccak d ≠ keccak d) ∧
    (∀ l r : List Nat, l.length = 32 → r.length = 32 → l ≠ r →
      hash_nodes keccak l r ≠ hash_nodes keccak r l) := by
  constructor
  · intro d h
    have hlen := congrArg List.length (hinj h)
    simp at hlen
  · intro l r hl hr hne h
    have hx := hinj h
    have h2 : l ++ r = r ++ l := by
      injection hx
    exact hne (List.append_inj h2 (hl.trans hr.symm)).1

theorem C8_domain_separation_witness :
    hash_leaf id [7] ≠ id [7] ∧
      hash_nodes id (List.replicate 32 0) (1 :: List.replicate 31 0) ≠
        hash_nodes id (1 :: List.replicate 31 0) (List.replicate 32 0) :=
  ⟨(C8_domain_separation id Function.injective_id).1 [7],
   (C8_domain_separation id Function.injective_id).2 (List.replicate 32 0)
     (1 :: List.replicate 31 0) (by simp) (by simp) (by decide)⟩

/-- `TrustDimension` from `state/trust_edge.rs`: five dimensions with
`repr(u8)` tags 0 to 4. -/
inductive TrustDimension where
  | Trading
  | Civic
  | Developer
  | Infra
  | Creator
deriving DecidableEq, Repr

/-- The numeric tag of a dimension (`repr(u8)` discriminants, and the single
byte Borsh writes for the enum). -/
def dimTag : TrustDimension → Nat
  | .Trading => 0
  | .Civic => 1
  | .Developer => 2
  | .Infra => 3
  | .Creator => 4

/-- `TrustEdgeData` from `state/trust_edge.rs`: `trustee` is a 32-byte
`Pubkey`, `weight` a `u16` (valid range 0 to 10000 basis points),
`created_at` an `i64`. -/
structure TrustEdgeData where
  trustee : List Nat
  dimension : TrustDimension
  weight : Nat
  created_at : Int
deriving DecidableEq, Repr

/-- Borsh little-endian encoding of a `u16` (2 fixed bytes). -/
def u16LE (w : Nat) : List Nat :=
  [w % 256, w / 256 % 256]

/-- Borsh little-endian encoding of a `u64` value (8 fixed bytes). -/
def u64LE (n : Nat) : List Nat :=
  [n % 256, n / 256 % 256, n / 65536 % 256, n / 16777216 % 256,
   n / 4294967296 % 256, n / 1099511627776 % 256,
   n / 281474976710656 % 256, n / 72057594037927936 % 256]

/-- Two's-complement view of an `i64` as an unsigned 64-bit value. -/
def toU64 (t : Int) : Nat :=
  (t % 18446744073709551616).toNat

/-- Borsh little-endian encoding of an `i64` (8 fixed bytes,
two's complement). -/
def i64LE (t : Int) : List Nat :=
  u64LE (toU64 t)

/-- The Borsh serialization of `TrustEdgeData` produced by
`edge_data.try_to_vec()` in `instructions/verify_edge.rs` (fields in
declared order: trustee 32 bytes, dimension tag 1 byte, weight 2 bytes
little-endian, created_at 8 bytes little-endian two's complement). -/
def serializeEdge (e : TrustEdgeData) : List Nat :=
  e.trustee ++ dimTag e.dimension :: (u16LE e.weight ++ i64LE e.created_at)

/-- A well-formed edge: the trustee is 32 bytes, the weight fits the valid
basis-point range, and `created_at` fits an `i64`.  The dimension tag is in
0 to 4 by the type itself. -/
def validEdge (e : TrustEdgeData) : Prop :=
  e.trustee.length = 32 ∧ (∀ b ∈ e.trustee, b < 256) ∧ e.weight ≤ 10000 ∧
    -(9223372036854775808 : Int) ≤ e.created_at ∧
    e.created_at < 9223372036854775808

instance (e : TrustEdgeData) : Decidable (validEdge e) := by
  unfold validEdge; infer_instance

/-- C4 -- the canonical encoding of a valid edge is exactly 43 bytes: the
concatenation, in fixed order, of the 32-byte trustee, the 1-byte dimension
tag (which is at most 4), the 2-byte little-endian weight, and the 8-byte
two's-complement `created_at`. -/
theorem C4_canonical_encoding_43_bytes (e : TrustEdgeData) (h : validEdge e) :
    (serializeEdge e).length = 43 ∧
    serializeEdge e =
      e.trustee ++ [dimTag e.dimension] ++ u16LE e.weight ++ i64LE e.created_at ∧
    e.trustee.length = 32 ∧ (u16LE e.weight).length = 2 ∧
    (i64LE e.created_at).length = 8 ∧ dimTag e.dimension ≤ 4 := by
  refine ⟨?_, ?_, h.1, rfl, rfl, ?_⟩
  · simp [serializeEdge, u16LE, i64LE, u64LE, h.1]
  · simp [serializeEdge]
  · cases e.dimension <;> simp [dimTag]

theorem C4_canonical_encoding_43_bytes_witness :
    (serializeEdge ⟨List.replicate 32 7, .Developer, 9999, -5⟩).length = 43 :=
  (C4_canonical_encoding_43_bytes ⟨List.replicate 32 7, .Developer, 9999, -5⟩
    (by refine ⟨by simp, by simp, by norm_num, by norm_num, by norm_num⟩)).1

/-- Modelled from the spec: the Borsh deserializer for the edge (derived by
`AnchorDeserialize` in `state/trust_edge.rs`, derive output not under
`src/`) — inverse of the fixed-width little-endian layout of §4.2.
Little-endian decode of 2 bytes. -/
def decodeU16 (bs : List Nat) : Nat :=
  bs.getD 0 0 + 256 * bs.getD 1 0

/-- Modelled from the spec: little-endian decode of 8 bytes (see
`decodeU16`). -/
def decodeU64 (bs : List Nat) : Nat :=
  bs.getD 0 0 + 256 * bs.getD 1 0 + 65536 * bs.getD 2 0 +
    16777216 * bs.getD 3 0 + 4294967296 * bs.getD 4 0 +
    1099511627776 * bs.getD 5 0 + 281474976710656 * bs.getD 6 0 +
    72057594037927936 * bs.getD 7 0

/-- Modelled from the spec: two's-complement decode of an 8-byte `i64`. -/
def decodeI64 (bs : List Nat) : Int :=
  let n := decodeU64 bs
  if n < 9223372036854775808 then (n : Int)
  else (n : Int) - 18446744073709551616

/-- Modelled from the spec: the inverse of the dimension tag mapping
(tags 0 to 4; any other tag is a deserialization failure). -/
def tagToDim : Nat → Option TrustDimension
  | 0 => some .Trading
  | 1 => some .Civic
  | 2 => some .Developer
  | 3 => some .Infra
  | 4 => some .Creator
  | _ => none

/-- Modelled from the spec: the Borsh deserializer for `TrustEdgeData`
(derive output not under `src/`): read exactly 43 bytes as trustee (32),
dimension tag (1), weight (2, little-endian), created_at (8, little-endian
two's complement). -/
def deserializeEdge (bs : List Nat) : Option TrustEdgeData :=
  if bs.length = 43 then
    match tagToDim ((bs.drop 32).getD 0 0) with
    | none => none
    | some d =>
        some { trustee := bs.take 32, dimension := d,
               weight := decodeU16 ((bs.drop 33).take 2),
               created_at := decodeI64 ((bs.drop 35).take 8) }
  else none

theorem decodeU16_u16LE (w : Nat) (h : w < 65536) :
    decodeU16 (u16LE w) = w := by
  simp only [decodeU16, u16LE, List.getD]
  simp only [List.get?_cons_zero, List.get?_cons_succ, Option.getD_some]
  omega

theorem decodeU64_u64LE (n : Nat) (h : n < 18446744073709551616) :
    decodeU64 (u64LE n) = n := by
  simp only [decodeU64, u64LE, List.getD]
  simp only [List.get?_cons_zero, List.get?_cons_succ, Option.getD_some]
  omega

theorem decodeI64_i64LE (t : Int)
    (h1 : -(9223372036854775808 : Int) ≤ t)
    (h2 : t < 9223372036854775808) :
    decodeI64 (i64LE t) = t := by
  have hlt : toU64 t < 18446744073709551616 := by
    simp only [toU64]; omega
  have key := decodeU64_u64LE (toU64 t) hlt
  simp only [i64LE, decodeI64, key]
  simp only [toU64]
  split <;> omega

theorem tagToDim_dimTag (d : TrustDimension) : tagToDim (dimTag d) = some d := by
  cases d <;> rfl

/-- C7 -- round trip: decoding the 43-byte canonical encoding of any valid
edge reproduces the original edge exactly. -/
theorem C7_decode_encode_round_trip (e : TrustEdgeData) (h : validEdge e) :
    deserializeEdge (serializeEdge e) = some e := by
  obtain ⟨hlen, -, hw, ht1, ht2⟩ := h
  have hlen43 : (serializeEdge e).length = 43 := by
    simp [serializeEdge, u16LE, i64LE, u64LE, hlen]
  have htake32 : (serializeEdge e).take 32 = e.trustee := by
    rw [serializeEdge]; exact List.take_left' hlen
  have hdrop32 : (serializeEdge e).drop 32 =
      dimTag e.dimension :: (u16LE e.weight ++ i64LE e.created_at) := by
    rw [serializeEdge]; exact List.drop_left' hlen
  have hdrop33 : (serializeEdge e).drop 33 =
      u16LE e.weight ++ i64LE e.created_at := by
    have hdd : ((serializeEdge e).drop 32).drop 1 = (serializeEdge e).drop 33 := by
      rw [List.drop_drop]
    rw [← hdd, hdrop32, List.drop_one, List.tail_cons]
  have hdrop35 : (serializeEdge e).drop 35 = i64LE e.created_at := by
    have hdd : ((serializeEdge e).drop 32).drop 3 = (serializeEdge e).drop 35 := by
      rw [List.drop_drop]
    rw [← hdd, hdrop32]
    simp [u16LE]
  have htw : ((serializeEdge e).drop 33).take 2 = u16LE e.weight := by
    rw [hdrop33]; exact List.take_left' rfl
  have htt : ((serializeEdge e).drop 35).take 8 = i64LE e.created_at := by
    rw [hdrop35]
    simp [i64LE, u64LE]
  unfold deserializeEdge
  rw [if_pos hlen43, hdrop32]
  simp only [List.getD_cons_zero, tagToDim_dimTag, htake32, htw, htt,
    decodeU16_u16LE e.weight (by omega), decodeI64_i64LE e.created_at ht1 ht2]

theorem C7_decode_encode_round_trip_witness :
    deserializeEdge (serializeEdge ⟨List.replicate 32 9, .Civic, 10000, 1700000000⟩) =
      some ⟨List.replicate 32 9, .Civic, 10000, 1700000000⟩ :=
  C7_decode_encode_round_trip ⟨List.replicate 32 9, .Civic, 10000, 1700000000⟩
    ⟨by simp, by simp, by norm_num, by norm_num, by norm_num⟩

/-- `TrustAnchor` from `state/trust_anchor.rs`: the per-owner persisted
record.  `owner` is a 32-byte `Pubkey`, `merkle_root` 32 bytes,
`edge_count` a `u16`, the timestamps `i64`, `bump` a `u8`. -/
structure TrustAnchor where
  owner : List Nat
  merkle_root : List Nat
  edge_count : Nat
  last_updated : Int
  created_at : Int
  bump : Nat
deriving DecidableEq, Repr

/-- `LatticeError` from `errors.rs`. -/
inductive LatticeError where
  | InvalidMerkleProof
  | InvalidTrustWeight
  | EdgeCountOverflow
deriving DecidableEq, Repr

/-- The error kinds an operation can report (§7): the program's own
`LatticeError`s, plus the two raised by the hosting framework's account
constraints — `AuthorizationError` for the `has_one = owner` / signer
constraint of `UpdateRoot`, `AlreadyExists` for the `init` constraint of
`Initialize` (constraint enforcement is framework code, modelled from the
spec). -/
inductive OpError where
  | program (e : LatticeError)
  | AuthorizationError
  | AlreadyExists
deriving DecidableEq, Repr

/-- The all-zero 32-byte root (`[0u8; 32]`), the "no edges committed"
sentinel. -/
def zeroRoot : List Nat := List.replicate 32 0

/-- The `handler` of `instructions/update_root.rs`: `require!(new_count > 0
|| new_root == [0u8; 32], EdgeCountOverflow)`, then set `merkle_root`,
`edge_count` and `last_updated = clock.unix_timestamp` (the wall clock is
passed in as `now`). -/
def updateRootHandler (anchor : TrustAnchor) (now : Int)
    (new_root : List Nat) (new_count : Nat) :
    Except LatticeError TrustAnchor :=
  if 0 < new_count ∨ new_root = zeroRoot then
    .ok { anchor with
          merkle_root := new_root,
          edge_count := new_count,
          last_updated := now }
  else .error .EdgeCountOverflow

/-- The `UpdateRoot` operation including its account constraints.
Modelled from the spec: the `has_one = owner` + `Signer` constraints
declared in `instructions/update_root.rs` are enforced by the hosting
framework (code not under `src/`), which rejects a caller other than the
record's owner with an authorization error before the handler runs. -/
def updateRoot (caller : List Nat) (anchor : TrustAnchor) (now : Int)
    (new_root : List Nat) (new_count : Nat) :
    Except OpError TrustAnchor :=
  if caller = anchor.owner then
    match updateRootHandler anchor now new_root new_count with
    | .ok a => .ok a
    | .error e => .error (.program e)
  else .error .AuthorizationError

/-- The `handler` of `instructions/verify_edge.rs`: check
`edge_data.weight <= 10_000` (`InvalidTrustWeight`), Borsh-serialize the
edge, hash with `hash_leaf`, and check `verify_proof` against the record's
`merkle_root` (`InvalidMerkleProof`).  The accounts struct takes the record
immutably (no `mut` constraint), so no record is produced. -/
def verifyEdgeHandler (keccak : List Nat → List Nat) (anchor : TrustAnchor)
    (edge : TrustEdgeData) (proof : List (List Nat)) (leafIndex : Nat) :
    Except LatticeError Unit :=
  if edge.weight ≤ 10000 then
    if verify_proof keccak proof anchor.merkle_root
        (hash_leaf keccak (serializeEdge edge)) leafIndex then
      .ok ()
    else .error .InvalidMerkleProof
  else .error .InvalidTrustWeight

/-- The `handler` of `instructions/initialize.rs` together with the `init`
account constraint.  Modelled from the spec: the framework's `init`
constraint (code not under `src/`) fails with an already-exists error when
a record for this owner is present; otherwise the handler fills the fresh
record. -/
def createAnchor (existing : Option TrustAnchor) (owner : List Nat)
    (now : Int) (bump : Nat) : Except OpError TrustAnchor :=
  match existing with
  | some _ => .error .AlreadyExists
  | none =>
      .ok { owner := owner, merkle_root := zeroRoot, edge_count := 0,
            last_updated := now, created_at := now, bump := bump }

/-- Modelled from the spec (§5, §7): the hosting substrate applies an
operation atomically — on success the record is replaced by the handler's
output, on any error the record is left untouched. -/
def applyUpdateRoot (caller : List Nat) (anchor : TrustAnchor) (now : Int)
    (new_root : List Nat) (new_count : Nat) :
    TrustAnchor × Option OpError :=
  match updateRoot caller anchor now new_root new_count with
  | .ok a => (a, none)
  | .error e => (anchor, some e)

/-- Modelled from the spec (§5, §7): `VerifyEdgeInclusion` is a read-only
query — the record is passed through unchanged whatever the result (the
accounts struct in `instructions/verify_edge.rs` declares no `mut`). -/
def applyVerifyEdge (keccak : List Nat → List Nat) (anchor : TrustAnchor)
    (edge : TrustEdgeData) (proof : List (List Nat)) (leafIndex : Nat) :
    TrustAnchor × Option LatticeError :=
  match verifyEdgeHandler keccak anchor edge proof leafIndex with
  | .ok _ => (anchor, none)
  | .error e => (anchor, some e)

/-- Modelled from the spec (§5, §7): a failing `CreateAnchor` leaves the
per-owner store untouched. -/
def applyCreateAnchor (existing : Option TrustAnchor) (owner : List Nat)
    (now : Int) (bump : Nat) :
    Option TrustAnchor × Option OpError :=
  match createAnchor existing owner now bump with
  | .ok a => (some a, none)
  | .error e => (existing, some e)

/-- C2 -- `VerifyEdgeInclusion`: a weight above 10000 fails with
`InvalidTrustWeight` regardless of the proof; otherwise the call fails with
`InvalidMerkleProof` exactly when `verify_proof` on the hashed canonical
encoding returns false and succeeds otherwise; the record is never
mutated. -/
theorem C2_verify_edge_error_conditions (keccak : List Nat → List Nat)
    (anchor : TrustAnchor) (edge : TrustEdgeData) (proof : List (List Nat))
    (i : Nat) :
    (10000 < edge.weight →
      verifyEdgeHandler keccak anchor edge proof i =
        .error .InvalidTrustWeight) ∧
    (edge.weight ≤ 10000 →
      ((verifyEdgeHandler keccak anchor edge proof i =
          .error .InvalidMerkleProof) ↔
        verify_proof keccak proof anchor.merkle_root
          (hash_leaf keccak (serializeEdge edge)) i = false) ∧
      ((verifyEdgeHandler keccak anchor edge proof i = .ok ()) ↔
        verify_proof keccak proof anchor.merkle_root
          (hash_leaf keccak (serializeEdge edge)) i = true)) ∧
    (applyVerifyEdge keccak anchor edge proof i).1 = anchor := by
  refine ⟨fun hw => ?_, fun hw => ?_, ?_⟩
  · simp only [verifyEdgeHandler, if_neg (by omega : ¬ edge.weight ≤ 10000)]
  · simp only [verifyEdgeHandler, if_pos hw]
    cases hv : verify_proof keccak proof anchor.merkle_root
        (hash_leaf keccak (serializeEdge edge)) i <;> simp
  · unfold applyVerifyEdge
    cases h : verifyEdgeHandler keccak anchor edge proof i <;> simp

theorem C2_verify_edge_error_conditions_witness :
    verifyEdgeHandler id ⟨List.replicate 32 1, zeroRoot, 0, 0, 0, 0⟩
        ⟨List.replicate 32 2, .Trading, 10001, 0⟩ [] 0 =
      .error .InvalidTrustWeight ∧
    verifyEdgeHandler id
        ⟨List.replicate 32 1,
          hash_leaf id (serializeEdge ⟨List.replicate 32 2, .Trading, 5, 3⟩),
          1, 0, 0, 0⟩
        ⟨List.replicate 32 2, .Trading, 5, 3⟩ [] 0 = .ok () := by
  constructor
  · exact (C2_verify_edge_error_conditions id
      ⟨List.replicate 32 1, zeroRoot, 0, 0, 0, 0⟩
      ⟨List.replicate 32 2, .Trading, 10001, 0⟩ [] 0).1 (by norm_num)
  · exact (((C2_verify_edge_error_conditions id
      ⟨List.replicate 32 1,
        hash_leaf id (serializeEdge ⟨List.replicate 32 2, .Trading, 5, 3⟩),
        1, 0, 0, 0⟩
      ⟨List.replicate 32 2, .Trading, 5, 3⟩ [] 0).2.1
        (by norm_num)).2).mpr (by decide)

/-- C3 -- `UpdateRoot` by the authenticated owner fails with
`EdgeCountOverflow` exactly when `new_count = 0` and `new_root` is not the
all-zero root; any call with `new_count > 0` passes validation whatever the
root. -/
theorem C3_update_root_count_root_check (caller : List Nat)
    (anchor : TrustAnchor) (now : Int) (new_root : List Nat)
    (new_count : Nat) (hauth : caller = anchor.owner) :
    (updateRoot caller anchor now new_root new_count =
        .error (.program .EdgeCountOverflow) ↔
      new_count = 0 ∧ new_root ≠ zeroRoot) ∧
    (0 < new_count →
      updateRoot caller anchor now new_root new_count =
        .ok { anchor with
              merkle_root := new_root
              edge_count := new_count
              last_updated := now }) := by
  simp only [updateRoot, updateRootHandler, if_pos hauth]
  by_cases hc : 0 < new_count ∨ new_root = zeroRoot
  · rw [if_pos hc]
    refine ⟨⟨fun herr => absurd herr (by simp), fun hcon => ?_⟩, fun _ => rfl⟩
    rcases hc with hc | hc
    · omega
    · exact absurd hc hcon.2
  · rw [if_neg hc]
    push_neg at hc
    exact ⟨⟨fun _ => ⟨by omega, hc.2⟩, fun _ => rfl⟩,
      fun hcpos => absurd hcpos (by omega)⟩

theorem C3_update_root_count_root_check_witness :
    updateRoot (List.replicate 32 3) ⟨List.replicate 32 3, zeroRoot, 5, 0, 0, 255⟩
        10 (1 :: List.replicate 31 0) 0 =
      .error (.program .EdgeCountOverflow) :=
  ((C3_update_root_count_root_check (List.replicate 32 3)
      ⟨List.replicate 32 3, zeroRoot, 5, 0, 0, 255⟩ 10
      (1 :: List.replicate 31 0) 0 rfl).1).mpr ⟨rfl, by decide⟩

/-- C5 -- a successful owner-authenticated `UpdateRoot` sets `merkle_root`,
`edge_count` and `last_updated` and leaves `owner`, `created_at` and `bump`
unchanged. -/
theorem C5_update_root_success_frame (caller : List Nat)
    (anchor : TrustAnchor) (now : Int) (new_root : List Nat)
    (new_count : Nat) (hauth : caller = anchor.owner)
    (hval : 0 < new_count ∨ new_root = zeroRoot) :
    updateRoot caller anchor now new_root new_count =
      .ok { owner := anchor.owner, merkle_root := new_root,
            edge_count := new_count, last_updated := now,
            created_at := anchor.created_at, bump := anchor.bump } := by
  simp only [updateRoot, updateRootHandler, if_pos hauth, if_pos hval]

theorem C5_update_root_success_frame_witness :
    updateRoot (List.replicate 32 3)
        ⟨List.replicate 32 3, zeroRoot, 0, 11, 22, 255⟩ 33
        (9 :: List.replicate 31 0) 4 =
      .ok ⟨List.replicate 32 3, 9 :: List.replicate 31 0, 4, 33, 22, 255⟩ :=
  C5_update_root_success_frame (List.replicate 32 3)
    ⟨List.replicate 32 3, zeroRoot, 0, 11, 22, 255⟩ 33
    (9 :: List.replicate 31 0) 4 rfl (Or.inl (by norm_num))

/-- C10 -- an owner-authenticated `UpdateRoot` with the all-zero root and
count 0 succeeds, resetting the record to the empty-commitment sentinel
(zero root, zero count) with a refreshed `last_updated`: only the
zero-count-with-nonzero-root combination is rejected. -/
theorem C10_update_root_zero_reset (caller : List Nat)
    (anchor : TrustAnchor) (now : Int) (hauth : caller = anchor.owner) :
    updateRoot caller anchor now zeroRoot 0 =
      .ok { owner := anchor.owner, merkle_root := zeroRoot, edge_count := 0,
            last_updated := now, created_at := anchor.created_at,
            bump := anchor.bump } := by
  simp [updateRoot, updateRootHandler, hauth]

theorem C10_update_root_zero_reset_witness :
    updateRoot (List.replicate 32 6)
        ⟨List.replicate 32 6, 9 :: List.replicate 31 0, 17, 11, 22, 254⟩ 99
        zeroRoot 0 =
      .ok ⟨List.replicate 32 6, zeroRoot, 0, 99, 22, 254⟩ :=
  C10_update_root_zero_reset (List.replicate 32 6)
    ⟨List.replicate 32 6, 9 :: List.replicate 31 0, 17, 11, 22, 254⟩ 99 rfl

/-- C6 -- all-or-nothing: a failing `UpdateRoot` (in particular one by a
non-owner, which reports exactly `AuthorizationError`) leaves the record
untouched; `VerifyEdgeInclusion` never changes the record; a second
`CreateAnchor` for an existing owner reports exactly `AlreadyExists` and
leaves the stored record unchanged. -/
theorem C6_operations_all_or_nothing :
    (∀ (caller : List Nat) (anchor : TrustAnchor) (now : Int)
        (new_root : List Nat) (new_count : Nat),
      caller ≠ anchor.owner →
        updateRoot caller anchor now new_root new_count =
          .error .AuthorizationError ∧
        (applyUpdateRoot caller anchor now new_root new_count).1 = anchor) ∧
    (∀ (caller : List Nat) (anchor : TrustAnchor) (now : Int)
        (new_root : List Nat) (new_count : Nat) (e : OpError),
      updateRoot caller anchor now new_root new_count = .error e →
        (applyUpdateRoot caller anchor now new_root new_count).1 = anchor) ∧
    (∀ (keccak : List Nat → List Nat) (anchor : TrustAnchor)
        (edge : TrustEdgeData) (proof : List (List Nat)) (i : Nat),
      (applyVerifyEdge keccak anchor edge proof i).1 = anchor) ∧
    (∀ (stored : TrustAnchor) (owner : List Nat) (now : Int) (bump : Nat),
      createAnchor (some stored) owner now bump = .error .AlreadyExists ∧
        (applyCreateAnchor (some stored) owner now bump).1 = some stored) := by
  refine ⟨fun caller anchor now r c hne => ?_, fun caller anchor now r c e herr => ?_,
    fun keccak anchor edge proof i => ?_, fun stored owner now bump => ⟨rfl, rfl⟩⟩
  · have h : updateRoot caller anchor now r c = .error .AuthorizationError := by
      simp only [updateRoot, if_neg hne]
    exact ⟨h, by simp [applyUpdateRoot, h]⟩
  · simp [applyUpdateRoot, herr]
  · unfold applyVerifyEdge
    cases h : verifyEdgeHandler keccak anchor edge proof i <;> simp

theorem C6_operations_all_or_nothing_witness :
    updateRoot (List.replicate 32 4)
        ⟨List.replicate 32 3, zeroRoot, 0, 0, 0, 0⟩ 7 zeroRoot 1 =
      .error .AuthorizationError ∧
    (applyUpdateRoot (List.replicate 32 4)
        ⟨List.replicate 32 3, zeroRoot, 0, 0, 0, 0⟩ 7 zeroRoot 1).1 =
      ⟨List.replicate 32 3, zeroRoot, 0, 0, 0, 0⟩ :=
  C6_operations_all_or_nothing.1 (List.replicate 32 4)
    ⟨List.replicate 32 3, zeroRoot, 0, 0, 0, 0⟩ 7 zeroRoot 1 (by decide)
